import Mathlib

/-!
Shallow embedding of the sgb Game Boy emulator core (src/cpu.rs and
src/mmu.rs) and proofs about it.  Machine integers are modelled as `Nat`
with explicit `% 2^w` wrapping where the Rust code wraps; fallible
operations (the 16-bit memory accesses, whose `addr + 1` can overflow the
`u16` address type) return `Option`.  The collaborator modules that are
not part of the two source files (tools, the I/O port dispatcher, the
video notifier) are modelled from the spec where noted.
-/

set_option maxHeartbeats 2000000

set_option maxRecDepth 100000

namespace Sgb

/-- Names of the eight 8-bit registers (cpu.rs `Register`). -/
inductive Register where
  | A | B | C | D | E | H | L | F
deriving DecidableEq, Repr

/-- The four flag bits with their bit positions (cpu.rs `Flag`). -/
inductive Flag where
  | Z | N | H | C
deriving DecidableEq, Repr

/-- Bit position of a flag inside register F (the Rust enum discriminants). -/
def Flag.bit : Flag → Nat
  | .Z => 7
  | .N => 6
  | .H => 5
  | .C => 4

/-- cpu.rs `Registers`: the 8 byte registers plus PC and SP. -/
structure Registers where
  rs : Register → Nat
  pc : Nat
  sp : Nat

/-- cpu.rs `Clock`: length in bytes and duration in cycles of an instruction. -/
structure Clock where
  m : Nat
  t : Nat
deriving DecidableEq, Repr

/-- cpu.rs `TimerControl` (the TAC register). -/
structure TimerControl where
  timer_mode : Nat
  running : Bool

/-- cpu.rs `Timers`. -/
structure Timers where
  div : Nat
  tima : Nat
  tma : Nat
  tac : TimerControl
  imp_4c : Nat
  imp_nc : Nat

/-- cpu.rs `InterruptState` (the enhanced IME register). -/
inductive InterruptState where
  | IEnabled | IDisabled | IDisableNextInst | IEnableNextInst
deriving DecidableEq, Repr

/-- cpu.rs `Cpu`. -/
structure Cpu where
  registers : Registers
  clock : Clock
  interrupt : InterruptState
  timers : Timers

/-- mmu.rs `InterruptFlags`: the five interrupt bits of the IE/IF registers. -/
structure InterruptFlags where
  vblank : Bool
  lcd_stat : Bool
  timer : Bool
  serial : Bool
  joypad : Bool
deriving DecidableEq, Repr

/-- mmu.rs `Mmu`: memory banks are total byte maps. -/
structure Mmu where
  bios : Nat → Nat
  rom : Nat → Nat
  srom : Nat → Nat
  vram : Nat → Nat
  eram : Nat → Nat
  wram : Nat → Nat
  swram : Nat → Nat
  oam : Nat → Nat
  hram : Nat → Nat
  ier : InterruptFlags
  ifr : InterruptFlags
  bios_enabled : Bool
  joyp : Nat

/-- One sprite record of the GPU sprite cache (mmu.rs `update_sprite` target). -/
structure Sprite where
  x : Int
  y : Int
  tile_idx : Nat
  priority : Bool
  y_flip : Bool
  x_flip : Bool
  palette : Bool

/-- Modelled from the spec: the video collaborator (gpu module, not under
src/) only exposes the sprite cache written by OAM writes and an
`advance(cycles)` notification; we keep the cache and a log of the
notifications. -/
structure Gpu where
  sprites : Nat → Sprite
  advanced : List Nat

/-- Modelled from the spec: the I/O port dispatcher (io module, not under
src/) is an external collaborator with `read_io(addr) -> byte` and
`write_io(addr, byte)`; we model it as a read map plus a write log. -/
structure IoPorts where
  reads : Nat → Nat
  writes : List (Nat × Nat)

/-- The whole machine (vm.rs `Vm` is not under src/; its fields are exactly
the components the two source files access: cpu, mmu, gpu, io). -/
structure Vm where
  cpu : Cpu
  mmu : Mmu
  gpu : Gpu
  ports : IoPorts

/-- Modelled from the spec: tools::w_combine glues a high and a low byte,
big-endian pair convention (first argument is the high byte). -/
def w_combine (h l : Nat) : Nat := h * 256 + l

/-- Modelled from the spec: tools::w_uncombine splits a 16-bit value into
its (high, low) bytes. -/
def w_uncombine (v : Nat) : Nat × Nat := ((v / 256) % 256, v % 256)

/-- The `reg![vm ; r]` read access. -/
def reg_get (vm : Vm) (r : Register) : Nat := vm.cpu.registers.rs r

/-- The `reg![vm ; r] = v` write access. -/
def reg_set (vm : Vm) (r : Register) (v : Nat) : Vm :=
  { vm with cpu := { vm.cpu with registers := { vm.cpu.registers with
      rs := fun x => if x = r then v else vm.cpu.registers.rs x } } }

/-- The `pc![vm] = v` write access. -/
def pc_set (vm : Vm) (v : Nat) : Vm :=
  { vm with cpu := { vm.cpu with registers := { vm.cpu.registers with pc := v } } }

/-- The `sp![vm] = v` write access. -/
def sp_set (vm : Vm) (v : Nat) : Vm :=
  { vm with cpu := { vm.cpu with registers := { vm.cpu.registers with sp := v } } }

/-- The `flag![vm ; f]` test: `0x01 & (F >> flag) == 0x01`. -/
def flag_get (vm : Vm) (f : Flag) : Bool :=
  1 &&& (reg_get vm Register.F >>> f.bit) == 1

/-- cpu.rs `reset_flags`: set F to 0. -/
def reset_flags (vm : Vm) : Vm := reg_set vm Register.F 0

/-- The byte-level body of cpu.rs `set_flag`: set or clear one bit of the
flags byte (`!` on u8 is the 8-bit complement, hence the mask
`255 ^^^ (1 <<< bit)`). -/
def set_flag_byte (f bit : Nat) (value : Bool) : Nat :=
  if value then f ||| (1 <<< bit) else f &&& (255 ^^^ (1 <<< bit))

/-- cpu.rs `set_flag`: set or clear one flag bit of register F. -/
def set_flag (vm : Vm) (f : Flag) (value : Bool) : Vm :=
  reg_set vm Register.F (set_flag_byte (reg_get vm Register.F) f.bit value)

/-- cpu.rs `get_r16`: two registers glued together h:l. -/
def get_r16 (vm : Vm) (h l : Register) : Nat :=
  w_combine (reg_get vm h) (reg_get vm l)

/-- cpu.rs `set_r16`: split a 16-bit value into two registers; if the low
register is F, mask it to its high nibble afterwards. -/
def set_r16 (vm : Vm) (h l : Register) (value : Nat) : Vm :=
  let p := w_uncombine value
  let vm := reg_set vm h p.1
  let vm := reg_set vm l p.2
  if l = Register.F then reg_set vm l (reg_get vm l &&& 0xF0) else vm

/-- Modelled from the spec: io::dispatch_io_read delegates the address to
the I/O collaborator's read map. -/
def dispatch_io_read (addr : Nat) (vm : Vm) : Nat := vm.ports.reads addr

/-- Modelled from the spec: io::dispatch_io_write hands the write to the
I/O collaborator; we log it. -/
def dispatch_io_write (addr value : Nat) (vm : Vm) : Vm :=
  { vm with ports := { vm.ports with writes := (addr, value) :: vm.ports.writes } }

/-- Point update of a byte map (a `Vec` store in the source). -/
def bank_set (m : Nat → Nat) (i v : Nat) : Nat → Nat :=
  fun j => if j = i then v else m j

/-- mmu.rs `rb`: read a byte, routing by address range. -/
def rb (addr : Nat) (vm : Vm) : Nat :=
  if addr ≤ 0xFF then
    if vm.mmu.bios_enabled then vm.mmu.bios addr else vm.mmu.rom addr
  else if addr ≤ 0x3FFF then vm.mmu.rom addr
  else if addr ≤ 0x7FFF then vm.mmu.srom (addr - 0x4000)
  else if addr ≤ 0x9FFF then vm.mmu.vram (addr - 0x8000)
  else if addr ≤ 0xBFFF then vm.mmu.eram (addr - 0xA000)
  else if addr ≤ 0xCFFF then vm.mmu.wram (addr - 0xC000)
  else if addr ≤ 0xDFFF then vm.mmu.swram (addr - 0xD000)
  else if addr ≤ 0xEFFF then vm.mmu.wram (addr - 0xE000)
  else if addr ≤ 0xFDFF then vm.mmu.swram (addr - 0xF000)
  else if addr ≤ 0xFE9F then vm.mmu.oam (addr - 0xFE00)
  else if addr < 0xFF80 then dispatch_io_read addr vm
  else if addr ≤ 0xFFFE then vm.mmu.hram (addr - 0xFF80)
  else dispatch_io_read addr vm

/-- mmu.rs `rw`: read a word; the high byte is read at `addr + 1` with the
non-wrapping u16 addition, so the read fails when that addition overflows
the 16-bit address type. -/
def rw (addr : Nat) (vm : Vm) : Option Nat :=
  let l := rb addr vm
  if addr + 1 ≤ 0xFFFF then some (w_combine (rb (addr + 1) vm) l) else none

/-- mmu.rs `update_sprite`: refresh the GPU's parsed copy of one OAM byte. -/
def update_sprite (index value : Nat) (vm : Vm) : Vm :=
  let k := index / 4
  let s := vm.gpu.sprites k
  let s' :=
    match index &&& 0x03 with
    | 0 => { s with y := (value : Int) - 16 }
    | 1 => { s with x := (value : Int) - 8 }
    | 2 => { s with tile_idx := value }
    | 3 => { s with priority := value &&& 0x80 == 0,
                    y_flip := value &&& 0x40 != 0,
                    x_flip := value &&& 0x20 != 0,
                    palette := value &&& 0x10 != 0 }
    | _ => s
  { vm with gpu := { vm.gpu with
      sprites := fun j => if j = k then s' else vm.gpu.sprites j } }

/-- mmu.rs `wb`: write a byte, routing by address range.  The ROM arm
returns early, so it also skips the serial-debug tail of the source
function; that tail only prints and touches a process-wide static, which
is outside the machine state. -/
def wb (addr value : Nat) (vm : Vm) : Vm :=
  if addr ≤ 0x7FFF then vm
  else if addr ≤ 0x9FFF then
    { vm with mmu := { vm.mmu with vram := bank_set vm.mmu.vram (addr - 0x8000) value } }
  else if addr ≤ 0xBFFF then
    { vm with mmu := { vm.mmu with eram := bank_set vm.mmu.eram (addr - 0xA000) value } }
  else if addr ≤ 0xCFFF then
    { vm with mmu := { vm.mmu with wram := bank_set vm.mmu.wram (addr - 0xC000) value } }
  else if addr ≤ 0xDFFF then
    { vm with mmu := { vm.mmu with swram := bank_set vm.mmu.swram (addr - 0xD000) value } }
  else if addr ≤ 0xEFFF then
    { vm with mmu := { vm.mmu with wram := bank_set vm.mmu.wram (addr - 0xE000) value } }
  else if addr ≤ 0xFDFF then
    { vm with mmu := { vm.mmu with swram := bank_set vm.mmu.swram (addr - 0xF000) value } }
  else if addr ≤ 0xFE9F then
    update_sprite (addr - 0xFE00) value
      { vm with mmu := { vm.mmu with oam := bank_set vm.mmu.oam (addr - 0xFE00) value } }
  else if addr < 0xFF80 then dispatch_io_write addr value vm
  else if addr ≤ 0xFFFE then
    { vm with mmu := { vm.mmu with hram := bank_set vm.mmu.hram (addr - 0xFF80) value } }
  else dispatch_io_write addr value vm

/-- mmu.rs `ww`: write a word; the low byte goes to `addr`, the high byte
to `addr + 1` with the non-wrapping u16 addition, so the write fails when
that addition overflows the 16-bit address type. -/
def ww (addr value : Nat) (vm : Vm) : Option Vm :=
  let p := w_uncombine value
  let vm := wb addr p.2 vm
  if addr + 1 ≤ 0xFFFF then some (wb (addr + 1) p.1 vm) else none

/-- cpu.rs `read_program_byte`: fetch the byte at PC and advance PC by one
(wrapping u16 add). -/
def read_program_byte (vm : Vm) : Nat × Vm :=
  let byte := rb vm.cpu.registers.pc vm
  (byte, pc_set vm ((vm.cpu.registers.pc + 1) % 65536))

/-- cpu.rs `read_program_word`: fetch the word at PC and advance PC by two;
fallible through `rw`. -/
def read_program_word (vm : Vm) : Option (Nat × Vm) :=
  match rw vm.cpu.registers.pc vm with
  | none => none
  | some word => some (word, pc_set vm ((vm.cpu.registers.pc + 2) % 65536))

/-- cpu.rs `update_cpu_clock`: accumulate a clock into the running machine
clock with wrapping u64 additions. -/
def update_cpu_clock (clock : Clock) (vm : Vm) : Vm :=
  { vm with cpu := { vm.cpu with clock :=
      { m := (vm.cpu.clock.m + clock.m) % 18446744073709551616,
        t := (vm.cpu.clock.t + clock.t) % 18446744073709551616 } } }

/-- The DIV loop of cpu.rs `update_timers`: while the sub-counter is at
least 4, subtract 4 and increment DIV (wrapping u8 add). -/
def div_loop (c d : Nat) : Nat × Nat :=
  if 4 ≤ c then div_loop (c - 4) ((d + 1) % 256) else (c, d)
termination_by c
decreasing_by omega

/-- The TIMA loop of cpu.rs `update_timers`: while the sub-counter is at
least `diff`, subtract `diff` and step TIMA - reloading from TMA and
raising the timer pending flag on overflow, incrementing otherwise.  The
`0 < diff` guard is only for termination; every caller passes one of the
positive divisors 16, 1, 8, 4. -/
def tima_loop (diff c tima tma : Nat) (fl : Bool) : Nat × Nat × Bool :=
  if 0 < diff ∧ diff ≤ c then
    if tima = 0xFF then tima_loop diff (c - diff) tma tma true
    else tima_loop diff (c - diff) ((tima + 1) % 256) tma fl
  else (c, tima, fl)
termination_by c
decreasing_by all_goals omega

/-- The divisor table of cpu.rs `update_timers` (the match on
`tac.timer_mode`, including the defensive fallback to 16). -/
def timer_diff (mode : Nat) : Nat :=
  if mode = 0 then 16
  else if mode = 1 then 1
  else if mode = 2 then 8
  else if mode = 3 then 4
  else 16

/-- cpu.rs `update_timers`: advance DIV, and - while TAC's run flag is set -
advance TIMA, raising the pending timer interrupt on overflow. -/
def update_timers (clock : Clock) (vm : Vm) : Vm :=
  let t := vm.cpu.timers
  let dv := div_loop (t.imp_4c + clock.t) t.div
  if t.tac.running then
    let diff := timer_diff t.tac.timer_mode
    let r := tima_loop diff (t.imp_nc + clock.t) t.tima t.tma vm.mmu.ifr.timer
    { vm with
      cpu := { vm.cpu with timers :=
        { t with imp_4c := dv.1, div := dv.2, imp_nc := r.1, tima := r.2.1 } },
      mmu := { vm.mmu with ifr := { vm.mmu.ifr with timer := r.2.2 } } }
  else
    { vm with cpu := { vm.cpu with timers := { t with imp_4c := dv.1, div := dv.2 } } }

/-- Write the interrupt state field (`vm.cpu.interrupt = s`). -/
def set_interrupt (vm : Vm) (s : InterruptState) : Vm :=
  { vm with cpu := { vm.cpu with interrupt := s } }

/-- Write the pending-interrupt flags (`vm.mmu.ifr = f`). -/
def set_ifr (vm : Vm) (f : InterruptFlags) : Vm :=
  { vm with mmu := { vm.mmu with ifr := f } }

/-- cpu.rs `i_rst`: push PC (wrapping u16 decrement of SP, then a word
write, fallible as in `ww`) and jump to the fixed address. -/
def i_rst (vm : Vm) (addr : Nat) : Option (Clock × Vm) :=
  let vm := sp_set vm ((vm.cpu.registers.sp + 65536 - 2) % 65536)
  match ww vm.cpu.registers.sp vm.cpu.registers.pc vm with
  | none => none
  | some vm => some (⟨1, 16⟩, pc_set vm addr)

/-- cpu.rs `handle_interrupts`: service at most one pending-and-enabled
interrupt source, in the fixed priority order vblank, lcd_stat, timer,
serial, joypad. -/
def handle_interrupts (vm : Vm) : Option (Clock × Vm) :=
  if vm.mmu.ier.vblank && vm.mmu.ifr.vblank then
    let vm := set_ifr vm { vm.mmu.ifr with vblank := false }
    i_rst (set_interrupt vm .IDisabled) 0x40
  else if vm.mmu.ier.lcd_stat && vm.mmu.ifr.lcd_stat then
    let vm := set_ifr vm { vm.mmu.ifr with lcd_stat := false }
    i_rst (set_interrupt vm .IDisabled) 0x48
  else if vm.mmu.ier.timer && vm.mmu.ifr.timer then
    let vm := set_ifr vm { vm.mmu.ifr with timer := false }
    i_rst (set_interrupt vm .IDisabled) 0x50
  else if vm.mmu.ier.serial && vm.mmu.ifr.serial then
    let vm := set_ifr vm { vm.mmu.ifr with serial := false }
    i_rst (set_interrupt vm .IDisabled) 0x58
  else if vm.mmu.ier.joypad && vm.mmu.ifr.joypad then
    let vm := set_ifr vm { vm.mmu.ifr with joypad := false }
    i_rst (set_interrupt vm .IDisabled) 0x60
  else some (⟨0, 0⟩, vm)

/-- The interrupt-state transition applied at the end of every execution
step (the match at the end of cpu.rs `execute_one_instruction`). -/
def ist_transition : InterruptState → InterruptState
  | .IEnableNextInst => .IEnabled
  | .IDisableNextInst => .IDisabled
  | s => s

/-- The boot-latch stage at the top of cpu.rs `execute_one_instruction`:
once PC is at least 0x100, clear the bios latch. -/
def boot_stage (vm : Vm) : Vm :=
  if 0x100 ≤ vm.cpu.registers.pc then
    { vm with mmu := { vm.mmu with bios_enabled := false } }
  else vm

/-- Modelled from the spec: gpu::update_gpu_mode (gpu module, not under
src/) is the video collaborator's `advance(cycles)` notification; we log
the cycle count. -/
def update_gpu_mode (vm : Vm) (t : Nat) : Vm :=
  { vm with gpu := { vm.gpu with advanced := t :: vm.gpu.advanced } }

/-- The interrupt block of cpu.rs `execute_one_instruction`: when the
interrupt state is Enabled or DisableNextInstruction, run the service
check and accumulate its cost into the machine clock and the timers. -/
def interrupt_stage (vm : Vm) : Option Vm :=
  if vm.cpu.interrupt = .IDisableNextInst ∨ vm.cpu.interrupt = .IEnabled then
    match handle_interrupts vm with
    | none => none
    | some (clock2, vm) => some (update_timers clock2 (update_cpu_clock clock2 vm))
  else some vm

/-- The tail of cpu.rs `execute_one_instruction`: apply the deferred
interrupt-state transition and notify the video collaborator with the
instruction's own cycle count. -/
def finish_stage (clock : Clock) (vm : Vm) : Vm :=
  update_gpu_mode (set_interrupt vm (ist_transition vm.cpu.interrupt)) clock.t

/-- cpu.rs `execute_one_instruction`, with the fetch-dispatch-run stage
(the lines reading the opcode and resolving the dispatch tables)
abstracted as the function `instr`, which covers any instruction the
tables can return.  Everything else follows the source: clear the bios
latch when PC has reached 0x100, run the instruction, accumulate its clock
into the machine clock and the timers, run the interrupt block, apply the
deferred interrupt-state transition, and notify the video collaborator. -/
def execute_one_instruction (instr : Vm → Option (Clock × Vm)) (vm : Vm) : Option Vm :=
  let vm := boot_stage vm
  match instr vm with
  | none => none
  | some (clock, vm) =>
    let vm := update_cpu_clock clock vm
    let vm := update_timers clock vm
    match interrupt_stage vm with
    | none => none
    | some vm => some (finish_stage clock vm)

/-- cpu.rs `i_nop`: no state change, one byte, four cycles. -/
def i_nop (vm : Vm) : Clock × Vm := (⟨1, 4⟩, vm)

/-- cpu.rs `i_daa`: decimal adjust of the accumulator.  `result` is the
u16 working value; the u16 subtractions of the N branch are modelled as
wrapping (`+ 65536 - x` then `% 65536`). -/
def i_daa (vm : Vm) : Clock × Vm :=
  let c := flag_get vm Flag.C
  let h := flag_get vm Flag.H
  let a := reg_get vm Register.A
  let result :=
    if flag_get vm Flag.N then
      let r := if h then ((a + 65536 - 0x06) % 65536) &&& 0xFF else a
      if c then (r + 65536 - 0x60) % 65536 else r
    else
      let r := if h || decide (9 < a &&& 0xF) then a + 0x06 else a
      if c || decide (0x9F < r) then r + 0x60 else r
  let vm := reg_set vm Register.A (result % 256)
  let vm := set_flag vm Flag.Z (result == 0)
  let vm := set_flag vm Flag.H false
  if result &&& 0x100 != 0 then (⟨1, 4⟩, set_flag vm Flag.C true)
  else (⟨1, 4⟩, vm)

/-- cpu.rs `i_rlc_imp`: rotate a byte left by one (bit 7 into bit 0 and
into carry), resetting the flags first and computing C and Z. -/
def i_rlc_imp (value : Nat) (vm : Vm) : Nat × Vm :=
  let result := ((value <<< 1) % 256) ||| (value >>> 7)
  let vm := reset_flags vm
  let vm := set_flag vm Flag.C (value >>> 7 != 0)
  let vm := set_flag vm Flag.Z (result == 0)
  (result, vm)

/-- cpu.rs `i_rlc`: RLC applied to a register. -/
def i_rlc (vm : Vm) (reg : Register) : Clock × Vm :=
  let r := i_rlc_imp (reg_get vm reg) vm
  (⟨2, 8⟩, reg_set r.2 reg r.1)

/-- cpu.rs `i_jr`: unconditional relative jump by the signed displacement
byte (0x00-0x7F forward, otherwise back by `0xFF - byte + 1`), with
wrapping u16 PC arithmetic. -/
def i_jr (vm : Vm) : Clock × Vm :=
  let p := read_program_byte vm
  let byte := p.1
  let vm := p.2
  let vm :=
    if byte ≤ 0x7F then pc_set vm ((vm.cpu.registers.pc + byte) % 65536)
    else pc_set vm ((vm.cpu.registers.pc + 65536 - (0xFF - byte + 1)) % 65536)
  (⟨2, 12⟩, vm)

/-- cpu.rs `i_jrnf`: relative jump when the flag is clear; when the flag is
set, still consume the displacement byte and cost 8 cycles instead of 12. -/
def i_jrnf (vm : Vm) (flag : Flag) : Clock × Vm :=
  if flag_get vm flag then
    let p := read_program_byte vm
    (⟨2, 8⟩, p.2)
  else
    let p := i_jr vm
    (⟨2, 12⟩, p.2)

/-- cpu.rs `i_pop`: pop a register pair from the stack (fallible through
`rw`), then advance SP by two with wrapping u16 arithmetic. -/
def i_pop (vm : Vm) (h l : Register) : Option (Clock × Vm) :=
  match rw vm.cpu.registers.sp vm with
  | none => none
  | some value =>
    let vm := set_r16 vm h l value
    let vm := sp_set vm ((vm.cpu.registers.sp + 2) % 65536)
    some (⟨1, 16⟩, vm)

/-- cpu.rs `i_push`: push a register pair (fallible through `ww`). -/
def i_push (vm : Vm) (h l : Register) : Option (Clock × Vm) :=
  let vm := sp_set vm ((vm.cpu.registers.sp + 65536 - 2) % 65536)
  match ww vm.cpu.registers.sp (get_r16 vm h l) vm with
  | none => none
  | some vm => some (⟨1, 16⟩, vm)

/-- The default register file (cpu.rs `Registers::default`): the
documented post-boot state in the array order (a, b, c, d, e, h, l, f). -/
def registers_default : Registers where
  rs := fun r =>
    match r with
    | .A => 0x01 | .B => 0x00 | .C => 0x13 | .D => 0x00
    | .E => 0xD8 | .H => 0x01 | .L => 0x4D | .F => 0xB0
  pc := 0x0000
  sp := 0xFFFE

/-- The default interrupt flags (all clear). -/
def interrupt_flags_default : InterruptFlags :=
  ⟨false, false, false, false, false⟩

/-- The constant boot ROM contents (the `bios` vector literal of
mmu.rs `Mmu::default`). -/
def bios_bytes : List Nat :=
  [0x31, 0xFE, 0xFF, 0xAF, 0x21, 0xFF, 0x9F, 0x32, 0xCB, 0x7C, 0x20, 0xFB, 0x21, 0x26, 0xFF, 0x0E,
   0x11, 0x3E, 0x80, 0x32, 0xE2, 0x0C, 0x3E, 0xF3, 0xE2, 0x32, 0x3E, 0x77, 0x77, 0x3E, 0xFC, 0xE0,
   0x47, 0x11, 0x04, 0x01, 0x21, 0x10, 0x80, 0x1A, 0xCD, 0x95, 0x00, 0xCD, 0x96, 0x00, 0x13, 0x7B,
   0xFE, 0x34, 0x20, 0xF3, 0x11, 0xD8, 0x00, 0x06, 0x08, 0x1A, 0x13, 0x22, 0x23, 0x05, 0x20, 0xF9,
   0x3E, 0x19, 0xEA, 0x10, 0x99, 0x21, 0x2F, 0x99, 0x0E, 0x0C, 0x3D, 0x28, 0x08, 0x32, 0x0D, 0x20,
   0xF9, 0x2E, 0x0F, 0x18, 0xF3, 0x67, 0x3E, 0x64, 0x57, 0xE0, 0x42, 0x3E, 0x91, 0xE0, 0x40, 0x04,
   0x1E, 0x02, 0x0E, 0x0C, 0xF0, 0x44, 0xFE, 0x90, 0x20, 0xFA, 0x0D, 0x20, 0xF7, 0x1D, 0x20, 0xF2,
   0x0E, 0x13, 0x24, 0x7C, 0x1E, 0x83, 0xFE, 0x62, 0x28, 0x06, 0x1E, 0xC1, 0xFE, 0x64, 0x20, 0x06,
   0x7B, 0xE2, 0x0C, 0x3E, 0x87, 0xF2, 0xF0, 0x42, 0x90, 0xE0, 0x42, 0x15, 0x20, 0xD2, 0x05, 0x20,
   0x4F, 0x16, 0x20, 0x18, 0xCB, 0x4F, 0x06, 0x04, 0xC5, 0xCB, 0x11, 0x17, 0xC1, 0xCB, 0x11, 0x17,
   0x05, 0x20, 0xF5, 0x22, 0x23, 0x22, 0x23, 0xC9, 0xCE, 0xED, 0x66, 0x66, 0xCC, 0x0D, 0x00, 0x0B,
   0x03, 0x73, 0x00, 0x83, 0x00, 0x0C, 0x00, 0x0D, 0x00, 0x08, 0x11, 0x1F, 0x88, 0x89, 0x00, 0x0E,
   0xDC, 0xCC, 0x6E, 0xE6, 0xDD, 0xDD, 0xD9, 0x99, 0xBB, 0xBB, 0x67, 0x63, 0x6E, 0x0E, 0xEC, 0xCC,
   0xDD, 0xDC, 0x99, 0x9F, 0xBB, 0xB9, 0x33, 0x3E, 0x3C, 0x42, 0xB9, 0xA5, 0xB9, 0xA5, 0x42, 0x4C,
   0x21, 0x04, 0x01, 0x11, 0xA8, 0x00, 0x1A, 0x13, 0xBE, 0x20, 0xFE, 0x23, 0x7D, 0xFE, 0x34, 0x20,
   0xF5, 0x06, 0x19, 0x78, 0x86, 0x23, 0x05, 0x20, 0xFB, 0x86, 0x20, 0xFE, 0x3E, 0x01, 0xE0, 0x50]

/-- The default MMU (mmu.rs `Mmu::default`): the constant boot ROM,
zero-filled banks, interrupt registers clear, the bios latch active,
JOYP at 0x3F. -/
def mmu_default : Mmu where
  bios := fun i => bios_bytes.getD i 0
  rom := fun _ => 0
  srom := fun _ => 0
  vram := fun _ => 0
  eram := fun _ => 0
  wram := fun _ => 0
  swram := fun _ => 0
  oam := fun _ => 0
  hram := fun _ => 0
  ier := interrupt_flags_default
  ifr := interrupt_flags_default
  bios_enabled := true
  joyp := 0x3F

/-- A blank sprite record. -/
def sprite_default : Sprite := ⟨0, 0, 0, false, false, false, false⟩

/-- The default machine state: default CPU (clock zero, interrupts
disabled, timers zero), default MMU, empty sprite cache, silent I/O. -/
def vm_default : Vm where
  cpu :=
    { registers := registers_default
      clock := ⟨0, 0⟩
      interrupt := .IDisabled
      timers := { div := 0, tima := 0, tma := 0,
                  tac := { timer_mode := 0, running := false },
                  imp_4c := 0, imp_nc := 0 } }
  mmu := mmu_default
  gpu := { sprites := fun _ => sprite_default, advanced := [] }
  ports := { reads := fun _ => 0, writes := [] }

/-- The machine state exhibiting the DAA zero-flag defect: A = 0xA0 and
all four flags clear. -/
def vm_daa : Vm := reg_set (reg_set vm_default Register.A 0xA0) Register.F 0x00

/-- Iterate `i_rlc_imp`, threading the rotated byte and the machine state. -/
def rlc_iter : Nat → Nat × Vm → Nat × Vm
  | 0, p => p
  | n + 1, p => rlc_iter n (i_rlc_imp p.1 p.2)

/-- The byte-level shadow of one `i_rlc_imp` step: the rotated byte and
the flags byte it computes (fresh from zero, so independent of the old
flags byte). -/
def rlc_byte (p : Nat × Nat) : Nat × Nat :=
  let result := ((p.1 <<< 1) % 256) ||| (p.1 >>> 7)
  let f := set_flag_byte 0 4 (p.1 >>> 7 != 0)
  let f := set_flag_byte f 7 (result == 0)
  (result, f)

/-- Byte-level iteration of `rlc_byte`. -/
def rlcb_iter : Nat → Nat × Nat → Nat × Nat
  | 0, p => p
  | n + 1, p => rlcb_iter n (rlc_byte p)

/-- One whole-divisor step of the TIMA loop: reload from TMA and raise the
pending flag at the maximum value 0xFF, increment otherwise. -/
def tima_step (tma : Nat) (p : Nat × Bool) : Nat × Bool :=
  if p.1 = 0xFF then (tma, true) else ((p.1 + 1) % 256, p.2)

/-- The claim's concrete overflow scenario: TIMA 0xFF, TMA 0x05, TAC
running in mode 01, everything else default. -/
def vm_timer : Vm :=
  { vm_default with cpu := { vm_default.cpu with timers :=
      { div := 0, tima := 0xFF, tma := 0x05,
        tac := { timer_mode := 1, running := true },
        imp_4c := 0, imp_nc := 0 } } }

/-- The five interrupt sources, in priority order. -/
inductive IntSource where
  | vblank | lcdStat | timer | serial | joypad
deriving DecidableEq, Repr

/-- The enable bit of a source (IE register). -/
def src_enabled (vm : Vm) : IntSource → Bool
  | .vblank => vm.mmu.ier.vblank
  | .lcdStat => vm.mmu.ier.lcd_stat
  | .timer => vm.mmu.ier.timer
  | .serial => vm.mmu.ier.serial
  | .joypad => vm.mmu.ier.joypad

/-- The pending bit of a source (IF register). -/
def src_pending (vm : Vm) : IntSource → Bool
  | .vblank => vm.mmu.ifr.vblank
  | .lcdStat => vm.mmu.ifr.lcd_stat
  | .timer => vm.mmu.ifr.timer
  | .serial => vm.mmu.ifr.serial
  | .joypad => vm.mmu.ifr.joypad

/-- The fixed service vector of each source. -/
def vector_of : IntSource → Nat
  | .vblank => 0x40
  | .lcdStat => 0x48
  | .timer => 0x50
  | .serial => 0x58
  | .joypad => 0x60

/-- Clear the pending bit of one source. -/
def clear_pending (vm : Vm) : IntSource → Vm
  | .vblank => set_ifr vm { vm.mmu.ifr with vblank := false }
  | .lcdStat => set_ifr vm { vm.mmu.ifr with lcd_stat := false }
  | .timer => set_ifr vm { vm.mmu.ifr with timer := false }
  | .serial => set_ifr vm { vm.mmu.ifr with serial := false }
  | .joypad => set_ifr vm { vm.mmu.ifr with joypad := false }

/-- Modelled from the spec: the first source, in the fixed priority order
vblank, lcd_stat, timer, serial, joypad, whose enable and pending bits are
both set. -/
def first_qualifying (vm : Vm) : Option IntSource :=
  if vm.mmu.ier.vblank && vm.mmu.ifr.vblank then some .vblank
  else if vm.mmu.ier.lcd_stat && vm.mmu.ifr.lcd_stat then some .lcdStat
  else if vm.mmu.ier.timer && vm.mmu.ifr.timer then some .timer
  else if vm.mmu.ier.serial && vm.mmu.ifr.serial then some .serial
  else if vm.mmu.ier.joypad && vm.mmu.ifr.joypad then some .joypad
  else none

/-- A state with vblank and timer both enabled and pending: the priority
order must pick vblank. -/
def vm_int : Vm :=
  { vm_default with mmu := { vm_default.mmu with
      ier := { interrupt_flags_default with vblank := true, timer := true },
      ifr := { interrupt_flags_default with vblank := true, timer := true } } }

/-- The opcode 0x00 instruction (cpu.rs `i_nop`) in the shape the
execution step consumes. -/
def nop_instr (vm : Vm) : Option (Clock × Vm) := some (i_nop vm)

/-- An instruction function that never turns the boot latch back on; every
instruction of the source mutates memory only through `wb`/`ww`, which
preserve the latch (`wb_bios`, `ww_frame`), so this covers all of them. -/
def BiosPreserving (instr : Vm → Option (Clock × Vm)) : Prop :=
  ∀ vm c vm', vm.mmu.bios_enabled = false → instr vm = some (c, vm') →
    vm'.mmu.bios_enabled = false

/-- Run a sequence of execution steps (one instruction function per step). -/
def run_steps : List (Vm → Option (Clock × Vm)) → Vm → Option Vm
  | [], vm => some vm
  | i :: rest, vm =>
    match execute_one_instruction i vm with
    | none => none
    | some vm' => run_steps rest vm'

/-- The boot-end state: PC exactly at 0x0100, latch still on. -/
def vm_at_boot_end : Vm := pc_set vm_default 0x100

/-! ## Helper lemmas -/

theorem reg_get_set_same (vm : Vm) (r : Register) (v : Nat) :
    reg_get (reg_set vm r v) r = v := by
  simp [reg_get, reg_set]

theorem land_240_mod_16 (a : Nat) : (a &&& 240) % 16 = 0 := by
  have h16 : (16 : Nat) = 2 ^ 4 := by norm_num
  rw [h16, ← Nat.and_pow_two_sub_one_eq_mod, Nat.land_assoc]
  have h0 : (240 &&& 15 : Nat) = 0 := by decide
  rw [h0, Nat.and_zero]

/-! ## Claim C8: ROM writes are silently discarded -/

/-- Claim C8: for every address in 0x0000-0x7FFF and every byte value, the
memory write leaves the whole machine state unchanged - ROM writes are
silently discarded without error. -/
theorem wb_rom_discard (addr value : Nat) (vm : Vm) (h : addr ≤ 0x7FFF) :
    wb addr value vm = vm := by
  unfold wb
  rw [if_pos h]

theorem wb_rom_discard_witness :
    (0x1234 ≤ 0x7FFF) ∧ wb 0x1234 0xAB vm_default = vm_default :=
  ⟨by decide, wb_rom_discard 0x1234 0xAB vm_default (by decide)⟩

/-! ## Claim C1: the DAA flag contract -/

/-- Claim C1: at A = 0xA0 with N, H, C all clear, the BCD adjustment adds
0x60 giving the 16-bit working value 0x100, so the final A is 0x00 - yet
the code leaves Z clear because it tests the working value before
truncation instead of the final A.  H is cleared and C is forced true as
the claim states; the Z clause is the divergence. -/
theorem daa_zero_flag_divergence :
    reg_get (i_daa vm_daa).2 Register.A = 0 ∧
    flag_get (i_daa vm_daa).2 Flag.Z = false ∧
    flag_get (i_daa vm_daa).2 Flag.H = false ∧
    flag_get (i_daa vm_daa).2 Flag.C = true := by
  decide

/-! ## Claim C2: eight RLC rotations -/

theorem rlc_iter_proj (n : Nat) : ∀ (v : Nat) (vm : Vm),
    ((rlc_iter n (v, vm)).1, reg_get (rlc_iter n (v, vm)).2 Register.F)
      = rlcb_iter n (v, reg_get vm Register.F) := by
  induction n with
  | zero => intro v vm; rfl
  | succ n ih =>
    intro v vm
    rw [rlc_iter, rlcb_iter]
    have h1 := ih (i_rlc_imp v vm).1 (i_rlc_imp v vm).2
    rw [Prod.mk.eta] at h1
    rw [h1]
    rfl

theorem rlcb_iter_bound : ∀ w, w < 256 →
    (rlcb_iter 8 (w, 0)).1 = w ∧
    ((1 &&& ((rlcb_iter 8 (w, 0)).2 >>> 4)) == 1) = w.testBit 0 := by
  decide

/-- Claim C2 (counterexample): starting from the byte 0x01 (any flag
state), eight RLC rotations return 0x01, but the carry flag after the 8th
rotation is true while bit 7 of the original byte is 0 - the carry is not
bit 7 of the original byte. -/
theorem rlc_eight_carry_counterexample :
    (rlc_iter 8 (1, vm_default)).1 = 1 ∧
    flag_get (rlc_iter 8 (1, vm_default)).2 Flag.C = true ∧
    Nat.testBit 1 7 = false := by
  decide

/-- Claim C2 (amended): for every byte value and every starting machine
state, eight RLC rotations return the original byte, and the carry flag
after the 8th rotation equals bit 0 of the original byte (equivalently,
bit 7 of the byte entering the 8th rotation), not bit 7 of the original. -/
theorem rlc_eight_identity (v : Nat) (vm : Vm) (hv : v < 256) :
    (rlc_iter 8 (v, vm)).1 = v ∧
    flag_get (rlc_iter 8 (v, vm)).2 Flag.C = v.testBit 0 := by
  have hp := rlc_iter_proj 8 v vm
  have e1 : (rlc_iter 8 (v, vm)).1 = (rlcb_iter 8 (v, reg_get vm Register.F)).1 :=
    congrArg Prod.fst hp
  have e2 : reg_get (rlc_iter 8 (v, vm)).2 Register.F
      = (rlcb_iter 8 (v, reg_get vm Register.F)).2 :=
    congrArg Prod.snd hp
  have hf : rlcb_iter 8 (v, reg_get vm Register.F) = rlcb_iter 8 (v, 0) := rfl
  constructor
  · rw [e1, hf]
    exact (rlcb_iter_bound v hv).1
  · show (1 &&& (reg_get (rlc_iter 8 (v, vm)).2 Register.F >>> Flag.bit Flag.C) == 1)
      = v.testBit 0
    rw [e2, hf]
    exact (rlcb_iter_bound v hv).2

theorem rlc_eight_identity_witness :
    (0x81 < 256) ∧
    ((rlc_iter 8 (0x81, vm_default)).1 = 0x81 ∧
     flag_get (rlc_iter 8 (0x81, vm_default)).2 Flag.C = Nat.testBit 0x81 0) :=
  ⟨by decide, rlc_eight_identity 0x81 vm_default (by decide)⟩

/-! ## Claim C7: pair writes with F as the low register -/

theorem set_r16_f_mask (vm : Vm) (h : Register) (v : Nat) :
    reg_get (set_r16 vm h Register.F v) Register.F % 16 = 0 := by
  unfold set_r16
  simp only [if_pos rfl]
  rw [reg_get_set_same]
  exact land_240_mod_16 _

/-- Claim C7: for every high register and every 16-bit value, a pair write
whose low-named register is F (including the one POP AF performs) leaves
the low nibble of F equal to zero. -/
theorem pair_write_f_low_nibble :
    (∀ (vm : Vm) (h : Register) (v : Nat),
       reg_get (set_r16 vm h Register.F v) Register.F % 16 = 0) ∧
    (∀ (vm : Vm) (h : Register) (c : Clock) (vm' : Vm),
       i_pop vm h Register.F = some (c, vm') →
       reg_get vm' Register.F % 16 = 0) := by
  constructor
  · exact set_r16_f_mask
  · intro vm h c vm' hpop
    unfold i_pop at hpop
    cases hrw : rw vm.cpu.registers.sp vm with
    | none => rw [hrw] at hpop; cases hpop
    | some value =>
      rw [hrw] at hpop
      cases hpop
      exact set_r16_f_mask vm h value

theorem pair_write_f_low_nibble_witness :
    reg_get (set_r16 vm_default Register.A Register.F 0x3DEF) Register.F % 16 = 0 ∧
    Option.map (fun p => reg_get p.2 Register.F % 16)
      (i_pop vm_default Register.A Register.F) = some 0 := by
  refine ⟨pair_write_f_low_nibble.1 vm_default Register.A 0x3DEF, ?_⟩
  obtain ⟨c, vm', hp⟩ : ∃ c vm',
      i_pop vm_default Register.A Register.F = some (c, vm') := ⟨_, _, rfl⟩
  rw [hp]
  simp [pair_write_f_low_nibble.2 vm_default Register.A c vm' hp]

/-! ## Claim C10: 16-bit accesses and the addr + 1 overflow -/

/-- Claim C10: the 16-bit read and write compute the high-byte address as
`addr + 1` with the non-wrapping u16 addition, which overflows exactly at
addr = 0xFFFF; both operations succeed iff addr ≤ 0xFFFE. -/
theorem rw_ww_total_iff (addr value : Nat) (vm : Vm) (ha : addr < 65536) :
    ((rw addr vm).isSome ↔ addr ≤ 0xFFFE) ∧
    ((ww addr value vm).isSome ↔ addr ≤ 0xFFFE) ∧
    (addr = 0xFFFF → rw addr vm = none ∧ ww addr value vm = none) := by
  unfold rw ww
  by_cases hov : addr + 1 ≤ 0xFFFF
  · simp only [if_pos hov]
    refine ⟨?_, ?_, ?_⟩ <;> simp <;> omega
  · simp only [if_neg hov]
    refine ⟨?_, ?_, ?_⟩ <;> simp <;> omega

theorem rw_ww_total_iff_witness :
    (0x8000 < 65536) ∧
    (((rw 0x8000 vm_default).isSome ↔ 0x8000 ≤ 0xFFFE) ∧
     ((ww 0x8000 0xBEEF vm_default).isSome ↔ 0x8000 ≤ 0xFFFE) ∧
     (0x8000 = 0xFFFF → rw 0x8000 vm_default = none ∧
        ww 0x8000 0xBEEF vm_default = none)) :=
  ⟨by decide, rw_ww_total_iff 0x8000 0xBEEF vm_default (by decide)⟩

/-! ## Claim C9: JR NZ cost and displacement -/

/-- Claim C9: at the start of JR NZ (PC already past the opcode byte, so
the final PC counts the 2-byte length as PC + 1 here): with Z set the
instruction costs 8 cycles and only steps PC past the displacement byte;
with Z clear it costs 12 cycles and additionally offsets PC by the signed
displacement - bytes 0x00-0x7F are positive offsets, bytes 0x80-0xFF move
PC back by `0x100 - byte`, all with wrapping 16-bit arithmetic. -/
theorem i_jrnf_z_cost (vm : Vm)
    (hb : rb vm.cpu.registers.pc vm ≤ 0xFF) :
    (flag_get vm Flag.Z = true →
       i_jrnf vm Flag.Z = (⟨2, 8⟩, pc_set vm ((vm.cpu.registers.pc + 1) % 65536))) ∧
    (flag_get vm Flag.Z = false →
       (rb vm.cpu.registers.pc vm ≤ 0x7F →
          i_jrnf vm Flag.Z = (⟨2, 12⟩, pc_set vm
            (((vm.cpu.registers.pc + 1) % 65536 + rb vm.cpu.registers.pc vm) % 65536))) ∧
       (0x80 ≤ rb vm.cpu.registers.pc vm →
          i_jrnf vm Flag.Z = (⟨2, 12⟩, pc_set vm
            (((vm.cpu.registers.pc + 1) % 65536 + 65536
              - (0x100 - rb vm.cpu.registers.pc vm)) % 65536)))) := by
  constructor
  · intro hz
    unfold i_jrnf
    rw [if_pos hz]
    rfl
  · intro hz
    constructor
    · intro hb7
      unfold i_jrnf
      rw [if_neg (by rw [hz]; exact Bool.false_ne_true)]
      unfold i_jr read_program_byte
      simp only []
      rw [if_pos hb7]
      rfl
    · intro hb8
      have hb7 : ¬ rb vm.cpu.registers.pc vm ≤ 0x7F := by omega
      unfold i_jrnf
      rw [if_neg (by rw [hz]; exact Bool.false_ne_true)]
      unfold i_jr read_program_byte
      simp only []
      rw [if_neg hb7]
      have harith : 0xFF - rb vm.cpu.registers.pc vm + 1
          = 0x100 - rb vm.cpu.registers.pc vm := by omega
      rw [harith]
      rfl

theorem i_jrnf_z_cost_witness :
    (rb vm_default.cpu.registers.pc vm_default ≤ 0xFF
      ∧ flag_get vm_default Flag.Z = true) ∧
    i_jrnf vm_default Flag.Z
      = (⟨2, 8⟩, pc_set vm_default ((vm_default.cpu.registers.pc + 1) % 65536)) :=
  ⟨by decide, (i_jrnf_z_cost vm_default (by decide)).1 (by decide)⟩

/-! ## Claim C5: the TIMA timer -/

theorem timer_diff_pos (m : Nat) : 0 < timer_diff m := by
  unfold timer_diff
  split_ifs <;> norm_num

/-- The source's while loop consumes one whole divisor per iteration:
it is the `c / diff`-fold iterate of `tima_step`, leaving `c % diff`
in the sub-counter. -/
theorem tima_loop_eq (diff : Nat) (hd : 0 < diff) :
    ∀ c tima tma fl, tima_loop diff c tima tma fl
      = (c % diff, (tima_step tma)^[c / diff] (tima, fl)) := by
  intro c
  induction c using Nat.strong_induction_on with
  | _ c ih =>
    intro tima tma fl
    rw [tima_loop]
    by_cases hc : diff ≤ c
    · rw [if_pos ⟨hd, hc⟩]
      have h1 : c % diff = (c - diff) % diff := Nat.mod_eq_sub_mod hc
      have h2 : c / diff = (c - diff) / diff + 1 := Nat.div_eq_sub_div hd hc
      by_cases ht : tima = 0xFF
      · rw [if_pos ht]
        rw [ih (c - diff) (by omega) tma tma true]
        rw [h1, h2, Function.iterate_succ_apply]
        simp [tima_step, ht]
      · rw [if_neg ht]
        rw [ih (c - diff) (by omega) ((tima + 1) % 256) tma fl]
        rw [h1, h2, Function.iterate_succ_apply]
        simp [tima_step, ht]
    · rw [if_neg (by omega)]
      rw [Nat.mod_eq_of_lt (by omega), Nat.div_eq_of_lt (by omega)]
      rfl

/-- Claim C5: while TAC's run flag is set, advancing the timer adds the
elapsed cycles to the TIMA sub-counter and consumes it one whole divisor
(16, 1, 8, 4 for modes 0-3) at a time, each consumed divisor either
reloading TIMA from TMA and raising the pending timer interrupt (when TIMA
is 0xFF) or incrementing TIMA; the leftover stays in the sub-counter. -/
theorem update_timers_running (clock : Clock) (vm : Vm)
    (hrun : vm.cpu.timers.tac.running = true) :
    (update_timers clock vm).cpu.timers.imp_nc
        = (vm.cpu.timers.imp_nc + clock.t) % timer_diff vm.cpu.timers.tac.timer_mode ∧
    ((update_timers clock vm).cpu.timers.tima, (update_timers clock vm).mmu.ifr.timer)
        = (tima_step vm.cpu.timers.tma)^[(vm.cpu.timers.imp_nc + clock.t)
              / timer_diff vm.cpu.timers.tac.timer_mode]
            (vm.cpu.timers.tima, vm.mmu.ifr.timer) := by
  have hd := timer_diff_pos vm.cpu.timers.tac.timer_mode
  have hl := tima_loop_eq _ hd (vm.cpu.timers.imp_nc + clock.t)
    vm.cpu.timers.tima vm.cpu.timers.tma vm.mmu.ifr.timer
  unfold update_timers
  simp only [hrun, if_true, hl]
  exact ⟨trivial, trivial⟩

theorem update_timers_running_witness :
    (vm_timer.cpu.timers.tac.running = true) ∧
    (update_timers ⟨1, 1⟩ vm_timer).cpu.timers.tima = 0x05 ∧
    (update_timers ⟨1, 1⟩ vm_timer).mmu.ifr.timer = true := by
  refine ⟨rfl, ?_, ?_⟩
  · exact Eq.trans
      (congrArg Prod.fst (update_timers_running ⟨1, 1⟩ vm_timer rfl).2) (by rfl)
  · exact Eq.trans
      (congrArg Prod.snd (update_timers_running ⟨1, 1⟩ vm_timer rfl).2) (by rfl)

/-! ## Frame lemmas for the memory writer and the interrupt push -/

@[simp] theorem sp_set_sp (vm : Vm) (v : Nat) : (sp_set vm v).cpu.registers.sp = v := rfl

@[simp] theorem sp_set_pc (vm : Vm) (v : Nat) :
    (sp_set vm v).cpu.registers.pc = vm.cpu.registers.pc := rfl

@[simp] theorem sp_set_interrupt (vm : Vm) (v : Nat) :
    (sp_set vm v).cpu.interrupt = vm.cpu.interrupt := rfl

@[simp] theorem sp_set_mmu (vm : Vm) (v : Nat) : (sp_set vm v).mmu = vm.mmu := rfl

@[simp] theorem pc_set_pc (vm : Vm) (v : Nat) : (pc_set vm v).cpu.registers.pc = v := rfl

@[simp] theorem pc_set_sp (vm : Vm) (v : Nat) :
    (pc_set vm v).cpu.registers.sp = vm.cpu.registers.sp := rfl

@[simp] theorem pc_set_interrupt (vm : Vm) (v : Nat) :
    (pc_set vm v).cpu.interrupt = vm.cpu.interrupt := rfl

@[simp] theorem pc_set_mmu (vm : Vm) (v : Nat) : (pc_set vm v).mmu = vm.mmu := rfl

@[simp] theorem set_interrupt_interrupt (vm : Vm) (s : InterruptState) :
    (set_interrupt vm s).cpu.interrupt = s := rfl

@[simp] theorem set_interrupt_registers (vm : Vm) (s : InterruptState) :
    (set_interrupt vm s).cpu.registers = vm.cpu.registers := rfl

@[simp] theorem set_interrupt_mmu (vm : Vm) (s : InterruptState) :
    (set_interrupt vm s).mmu = vm.mmu := rfl

@[simp] theorem set_ifr_registers (vm : Vm) (f : InterruptFlags) :
    (set_ifr vm f).cpu.registers = vm.cpu.registers := rfl

@[simp] theorem set_ifr_interrupt (vm : Vm) (f : InterruptFlags) :
    (set_ifr vm f).cpu.interrupt = vm.cpu.interrupt := rfl

@[simp] theorem set_ifr_ifr (vm : Vm) (f : InterruptFlags) :
    (set_ifr vm f).mmu.ifr = f := rfl

@[simp] theorem set_ifr_ier (vm : Vm) (f : InterruptFlags) :
    (set_ifr vm f).mmu.ier = vm.mmu.ier := rfl

@[simp] theorem set_ifr_bios (vm : Vm) (f : InterruptFlags) :
    (set_ifr vm f).mmu.bios_enabled = vm.mmu.bios_enabled := rfl

/-- The byte writer never touches the CPU, the interrupt-flag registers or
the boot latch: every arm of `wb` only updates a memory bank, the sprite
cache, or the I/O log (the I/O range, including the IF and IE registers,
goes to the collaborator's write log in this model). -/
theorem wb_frame (addr v : Nat) (vm : Vm) :
    (wb addr v vm).cpu = vm.cpu ∧ (wb addr v vm).mmu.ifr = vm.mmu.ifr ∧
    (wb addr v vm).mmu.ier = vm.mmu.ier ∧
    (wb addr v vm).mmu.bios_enabled = vm.mmu.bios_enabled := by
  unfold wb
  by_cases h1 : addr ≤ 0x7FFF
  · rw [if_pos h1]; exact ⟨rfl, rfl, rfl, rfl⟩
  rw [if_neg h1]
  by_cases h2 : addr ≤ 0x9FFF
  · rw [if_pos h2]; exact ⟨rfl, rfl, rfl, rfl⟩
  rw [if_neg h2]
  by_cases h3 : addr ≤ 0xBFFF
  · rw [if_pos h3]; exact ⟨rfl, rfl, rfl, rfl⟩
  rw [if_neg h3]
  by_cases h4 : addr ≤ 0xCFFF
  · rw [if_pos h4]; exact ⟨rfl, rfl, rfl, rfl⟩
  rw [if_neg h4]
  by_cases h5 : addr ≤ 0xDFFF
  · rw [if_pos h5]; exact ⟨rfl, rfl, rfl, rfl⟩
  rw [if_neg h5]
  by_cases h6 : addr ≤ 0xEFFF
  · rw [if_pos h6]; exact ⟨rfl, rfl, rfl, rfl⟩
  rw [if_neg h6]
  by_cases h7 : addr ≤ 0xFDFF
  · rw [if_pos h7]; exact ⟨rfl, rfl, rfl, rfl⟩
  rw [if_neg h7]
  by_cases h8 : addr ≤ 0xFE9F
  · rw [if_pos h8]; exact ⟨rfl, rfl, rfl, rfl⟩
  rw [if_neg h8]
  by_cases h9 : addr < 0xFF80
  · rw [if_pos h9]; exact ⟨rfl, rfl, rfl, rfl⟩
  rw [if_neg h9]
  by_cases h10 : addr ≤ 0xFFFE
  · rw [if_pos h10]; exact ⟨rfl, rfl, rfl, rfl⟩
  rw [if_neg h10]
  exact ⟨rfl, rfl, rfl, rfl⟩

@[simp] theorem wb_cpu (addr v : Nat) (vm : Vm) : (wb addr v vm).cpu = vm.cpu :=
  (wb_frame addr v vm).1

@[simp] theorem wb_ifr (addr v : Nat) (vm : Vm) : (wb addr v vm).mmu.ifr = vm.mmu.ifr :=
  (wb_frame addr v vm).2.1

@[simp] theorem wb_ier (addr v : Nat) (vm : Vm) : (wb addr v vm).mmu.ier = vm.mmu.ier :=
  (wb_frame addr v vm).2.2.1

@[simp] theorem wb_bios (addr v : Nat) (vm : Vm) :
    (wb addr v vm).mmu.bios_enabled = vm.mmu.bios_enabled :=
  (wb_frame addr v vm).2.2.2

theorem ww_eq_some (addr v : Nat) (vm : Vm) (h : addr + 1 ≤ 0xFFFF) :
    ww addr v vm = some (wb (addr + 1) (w_uncombine v).1 (wb addr (w_uncombine v).2 vm)) := by
  unfold ww
  rw [if_pos h]

theorem ww_frame (addr v : Nat) (vm vm' : Vm) (h : ww addr v vm = some vm') :
    vm'.cpu = vm.cpu ∧ vm'.mmu.ifr = vm.mmu.ifr ∧ vm'.mmu.ier = vm.mmu.ier ∧
    vm'.mmu.bios_enabled = vm.mmu.bios_enabled := by
  unfold ww at h
  by_cases hov : addr + 1 ≤ 0xFFFF
  · rw [if_pos hov] at h
    cases h
    simp
  · rw [if_neg hov] at h
    cases h

/-- Success and frame conditions of `i_rst`: when SP is a 16-bit value
other than 1 (where the high byte of the pushed word would need address
0x10000), the restart succeeds with cost (1, 16); it decrements SP by two
(wrapping), loads PC with the vector, and leaves the interrupt state, both
interrupt-flag registers and the boot latch untouched. -/
theorem i_rst_eq (vm : Vm) (addr : Nat) (hsp : vm.cpu.registers.sp < 65536)
    (h1 : vm.cpu.registers.sp ≠ 1) :
    ∃ vm', i_rst vm addr = some (⟨1, 16⟩, vm') ∧
      vm'.cpu.registers.pc = addr ∧
      vm'.cpu.registers.sp = (vm.cpu.registers.sp + 65536 - 2) % 65536 ∧
      vm'.cpu.interrupt = vm.cpu.interrupt ∧
      vm'.mmu.ifr = vm.mmu.ifr ∧
      vm'.mmu.ier = vm.mmu.ier ∧
      vm'.mmu.bios_enabled = vm.mmu.bios_enabled := by
  have hov : (vm.cpu.registers.sp + 65536 - 2) % 65536 + 1 ≤ 0xFFFF := by omega
  unfold i_rst
  simp only [sp_set_sp, sp_set_pc]
  rw [ww_eq_some _ _ _ hov]
  refine ⟨_, rfl, rfl, ?_, ?_, ?_, ?_, ?_⟩ <;> simp

/-! ## Claim C3: the interrupt service check -/

/-- The service check is exactly: clear the first qualifying source's
pending bit, force the state to Disabled, and restart at its vector. -/
theorem handle_interrupts_eq_rst (vm : Vm) (s : IntSource)
    (hs : first_qualifying vm = some s) :
    handle_interrupts vm
      = i_rst (set_interrupt (clear_pending vm s) .IDisabled) (vector_of s) := by
  unfold first_qualifying at hs
  unfold handle_interrupts
  by_cases h1 : vm.mmu.ier.vblank && vm.mmu.ifr.vblank
  · rw [if_pos h1] at hs ⊢; cases hs; rfl
  rw [if_neg h1] at hs ⊢
  by_cases h2 : vm.mmu.ier.lcd_stat && vm.mmu.ifr.lcd_stat
  · rw [if_pos h2] at hs ⊢; cases hs; rfl
  rw [if_neg h2] at hs ⊢
  by_cases h3 : vm.mmu.ier.timer && vm.mmu.ifr.timer
  · rw [if_pos h3] at hs ⊢; cases hs; rfl
  rw [if_neg h3] at hs ⊢
  by_cases h4 : vm.mmu.ier.serial && vm.mmu.ifr.serial
  · rw [if_pos h4] at hs ⊢; cases hs; rfl
  rw [if_neg h4] at hs ⊢
  by_cases h5 : vm.mmu.ier.joypad && vm.mmu.ifr.joypad
  · rw [if_pos h5] at hs ⊢; cases hs; rfl
  rw [if_neg h5] at hs
  cases hs

/-- Claim C3: the interrupt service evaluates the five sources in the
fixed priority order; if none has both its enable and pending bits set it
changes nothing and costs zero; otherwise, for the first qualifying source
only, it clears that source's pending bit (leaving the other pending bits
and the whole enable register unchanged), forces the interrupt state to
Disabled, pushes the current PC (the restart of the third conjunct is
exactly that push), jumps to the source's vector, and returns the
restart-instruction cost of 16 cycles.  SP = 1 is excluded: there the high
byte of the push would need the overflowing address 0x10000 (claim C10). -/
theorem handle_interrupts_priority (vm : Vm)
    (hsp : vm.cpu.registers.sp < 65536) (h1 : vm.cpu.registers.sp ≠ 1) :
    (first_qualifying vm = none → handle_interrupts vm = some (⟨0, 0⟩, vm)) ∧
    (∀ s, first_qualifying vm = some s →
       handle_interrupts vm
         = i_rst (set_interrupt (clear_pending vm s) .IDisabled) (vector_of s)) ∧
    (∀ s, first_qualifying vm = some s →
       ∃ vm', handle_interrupts vm = some (⟨1, 16⟩, vm') ∧
         vm'.cpu.registers.pc = vector_of s ∧
         vm'.cpu.interrupt = .IDisabled ∧
         vm'.cpu.registers.sp = (vm.cpu.registers.sp + 65536 - 2) % 65536 ∧
         src_pending vm' s = false ∧
         (∀ s2, s2 ≠ s → src_pending vm' s2 = src_pending vm s2) ∧
         vm'.mmu.ier = vm.mmu.ier) := by
  refine ⟨?_, fun s hs => handle_interrupts_eq_rst vm s hs, ?_⟩
  · intro hn
    unfold first_qualifying at hn
    unfold handle_interrupts
    by_cases c1 : vm.mmu.ier.vblank && vm.mmu.ifr.vblank
    · rw [if_pos c1] at hn; cases hn
    rw [if_neg c1] at hn ⊢
    by_cases c2 : vm.mmu.ier.lcd_stat && vm.mmu.ifr.lcd_stat
    · rw [if_pos c2] at hn; cases hn
    rw [if_neg c2] at hn ⊢
    by_cases c3 : vm.mmu.ier.timer && vm.mmu.ifr.timer
    · rw [if_pos c3] at hn; cases hn
    rw [if_neg c3] at hn ⊢
    by_cases c4 : vm.mmu.ier.serial && vm.mmu.ifr.serial
    · rw [if_pos c4] at hn; cases hn
    rw [if_neg c4] at hn ⊢
    by_cases c5 : vm.mmu.ier.joypad && vm.mmu.ifr.joypad
    · rw [if_pos c5] at hn; cases hn
    rw [if_neg c5]
  · intro s hs
    have heq := handle_interrupts_eq_rst vm s hs
    have hsp2 : (set_interrupt (clear_pending vm s) .IDisabled).cpu.registers.sp
        = vm.cpu.registers.sp := by
      cases s <;> rfl
    obtain ⟨vm', hrst, hpc, hspv, hint, hifr, hier, hbios⟩ :=
      i_rst_eq (set_interrupt (clear_pending vm s) .IDisabled) (vector_of s)
        (by rw [hsp2]; exact hsp) (by rw [hsp2]; exact h1)
    refine ⟨vm', by rw [heq, hrst], hpc, ?_, by rw [hspv, hsp2], ?_, ?_, ?_⟩
    · rw [hint]; rfl
    · cases s <;> simp [src_pending, hifr, clear_pending]
    · intro s2 hne
      cases s <;> cases s2 <;> simp_all [src_pending, hifr, clear_pending]
    · rw [hier]; cases s <;> rfl

theorem handle_interrupts_priority_witness :
    (vm_int.cpu.registers.sp < 65536 ∧ vm_int.cpu.registers.sp ≠ 1 ∧
     first_qualifying vm_int = some IntSource.vblank) ∧
    handle_interrupts vm_int
      = i_rst (set_interrupt (clear_pending vm_int IntSource.vblank) .IDisabled)
          (vector_of IntSource.vblank) :=
  ⟨⟨by decide, by decide, by decide⟩,
   (handle_interrupts_priority vm_int (by decide) (by decide)).2.1 IntSource.vblank
     (by decide)⟩

/-! ## Claim C4: when interrupt service runs and the deferred transition -/

/-- Unfolding of the execution step once the fetched instruction's result
is known. -/
theorem execute_one_instruction_run (instr : Vm → Option (Clock × Vm)) (vm : Vm)
    (c : Clock) (vmi : Vm) (hrun : instr (boot_stage vm) = some (c, vmi)) :
    execute_one_instruction instr vm =
      match interrupt_stage (update_timers c (update_cpu_clock c vmi)) with
      | none => none
      | some v => some (finish_stage c v) := by
  unfold execute_one_instruction
  simp only [hrun]

/-- Claim C4: in every call of the execution step, interrupt service is
invoked exactly when the interrupt state (as it stands after the
instruction ran and the clocks advanced) is Enabled or
DisableNextInstruction: if it is neither, the step finishes directly from
that state, and if it is, the step's outcome is exactly that of the
service (its cost folded into clock and timers).  In both cases the final
stage applies the deferred transition, whose action is
DisableNextInstruction to Disabled, EnableNextInstruction to Enabled, and
the identity on Enabled and Disabled. -/
theorem execute_step_interrupt_protocol
    (instr : Vm → Option (Clock × Vm)) (vm vmi vm1 : Vm) (c : Clock)
    (hrun : instr (boot_stage vm) = some (c, vmi))
    (hvm1 : vm1 = update_timers c (update_cpu_clock c vmi)) :
    ((vm1.cpu.interrupt ≠ .IDisableNextInst ∧ vm1.cpu.interrupt ≠ .IEnabled) →
       execute_one_instruction instr vm
         = some (update_gpu_mode (set_interrupt vm1 (ist_transition vm1.cpu.interrupt)) c.t)) ∧
    ((vm1.cpu.interrupt = .IDisableNextInst ∨ vm1.cpu.interrupt = .IEnabled) →
       (handle_interrupts vm1 = none → execute_one_instruction instr vm = none) ∧
       (∀ c2 vm2, handle_interrupts vm1 = some (c2, vm2) →
          execute_one_instruction instr vm
            = some (update_gpu_mode
                (set_interrupt (update_timers c2 (update_cpu_clock c2 vm2))
                  (ist_transition (update_timers c2 (update_cpu_clock c2 vm2)).cpu.interrupt))
                c.t))) ∧
    (ist_transition .IDisableNextInst = .IDisabled ∧
     ist_transition .IEnableNextInst = .IEnabled ∧
     ist_transition .IEnabled = .IEnabled ∧
     ist_transition .IDisabled = .IDisabled) := by
  have hx := execute_one_instruction_run instr vm c vmi hrun
  rw [← hvm1] at hx
  refine ⟨?_, ?_, rfl, rfl, rfl, rfl⟩
  · intro hn
    have hst : interrupt_stage vm1 = some vm1 := by
      unfold interrupt_stage
      rw [if_neg]
      rintro (h | h)
      · exact hn.1 h
      · exact hn.2 h
    rw [hx, hst]
    rfl
  · intro hor
    constructor
    · intro hnone
      have hst : interrupt_stage vm1 = none := by
        unfold interrupt_stage
        rw [if_pos hor, hnone]
      rw [hx, hst]
    · intro c2 vm2 hsome
      have hst : interrupt_stage vm1
          = some (update_timers c2 (update_cpu_clock c2 vm2)) := by
        unfold interrupt_stage
        rw [if_pos hor, hsome]
      rw [hx, hst]
      rfl

theorem execute_step_interrupt_protocol_witness :
    (nop_instr (boot_stage vm_default) = some (⟨1, 4⟩, boot_stage vm_default) ∧
     (update_timers ⟨1, 4⟩ (update_cpu_clock ⟨1, 4⟩ (boot_stage vm_default))).cpu.interrupt
       ≠ InterruptState.IDisableNextInst ∧
     (update_timers ⟨1, 4⟩ (update_cpu_clock ⟨1, 4⟩ (boot_stage vm_default))).cpu.interrupt
       ≠ InterruptState.IEnabled) ∧
    execute_one_instruction nop_instr vm_default
      = some (update_gpu_mode
          (set_interrupt (update_timers ⟨1, 4⟩ (update_cpu_clock ⟨1, 4⟩ (boot_stage vm_default)))
            (ist_transition (update_timers ⟨1, 4⟩
              (update_cpu_clock ⟨1, 4⟩ (boot_stage vm_default))).cpu.interrupt))
          (Clock.mk 1 4).t) :=
  ⟨⟨rfl, by decide, by decide⟩,
   (execute_step_interrupt_protocol nop_instr vm_default (boot_stage vm_default) _ ⟨1, 4⟩
      rfl rfl).1 ⟨by decide, by decide⟩⟩

/-! ## Claim C6: the boot-ROM latch is one-way -/

@[simp] theorem update_cpu_clock_mmu (c : Clock) (vm : Vm) :
    (update_cpu_clock c vm).mmu = vm.mmu := rfl

@[simp] theorem update_timers_bios (c : Clock) (vm : Vm) :
    (update_timers c vm).mmu.bios_enabled = vm.mmu.bios_enabled := by
  unfold update_timers
  by_cases h : vm.cpu.timers.tac.running <;> simp [h]

@[simp] theorem finish_stage_bios (c : Clock) (vm : Vm) :
    (finish_stage c vm).mmu.bios_enabled = vm.mmu.bios_enabled := rfl

theorem i_rst_bios (vm : Vm) (addr : Nat) (c : Clock) (vm' : Vm)
    (h : i_rst vm addr = some (c, vm')) :
    vm'.mmu.bios_enabled = vm.mmu.bios_enabled := by
  unfold i_rst at h
  simp only [sp_set_sp, sp_set_pc] at h
  cases hww : ww ((vm.cpu.registers.sp + 65536 - 2) % 65536) vm.cpu.registers.pc
      (sp_set vm ((vm.cpu.registers.sp + 65536 - 2) % 65536)) with
  | none =>
    rw [hww] at h
    exact Option.noConfusion h
  | some w =>
    rw [hww] at h
    cases h
    have hw := (ww_frame _ _ _ _ hww).2.2.2
    rw [pc_set_mmu, hw, sp_set_mmu]

theorem handle_interrupts_bios (vm : Vm) (c : Clock) (vm' : Vm)
    (h : handle_interrupts vm = some (c, vm')) :
    vm'.mmu.bios_enabled = vm.mmu.bios_enabled := by
  unfold handle_interrupts at h
  by_cases c1 : vm.mmu.ier.vblank && vm.mmu.ifr.vblank
  · rw [if_pos c1] at h
    exact i_rst_bios (set_interrupt (set_ifr vm { vm.mmu.ifr with vblank := false })
      InterruptState.IDisabled) 0x40 c vm' h
  rw [if_neg c1] at h
  by_cases c2 : vm.mmu.ier.lcd_stat && vm.mmu.ifr.lcd_stat
  · rw [if_pos c2] at h
    exact i_rst_bios (set_interrupt (set_ifr vm { vm.mmu.ifr with lcd_stat := false })
      InterruptState.IDisabled) 0x48 c vm' h
  rw [if_neg c2] at h
  by_cases c3 : vm.mmu.ier.timer && vm.mmu.ifr.timer
  · rw [if_pos c3] at h
    exact i_rst_bios (set_interrupt (set_ifr vm { vm.mmu.ifr with timer := false })
      InterruptState.IDisabled) 0x50 c vm' h
  rw [if_neg c3] at h
  by_cases c4 : vm.mmu.ier.serial && vm.mmu.ifr.serial
  · rw [if_pos c4] at h
    exact i_rst_bios (set_interrupt (set_ifr vm { vm.mmu.ifr with serial := false })
      InterruptState.IDisabled) 0x58 c vm' h
  rw [if_neg c4] at h
  by_cases c5 : vm.mmu.ier.joypad && vm.mmu.ifr.joypad
  · rw [if_pos c5] at h
    exact i_rst_bios (set_interrupt (set_ifr vm { vm.mmu.ifr with joypad := false })
      InterruptState.IDisabled) 0x60 c vm' h
  rw [if_neg c5] at h
  cases h
  rfl

theorem interrupt_stage_bios (vm vm' : Vm) (h : interrupt_stage vm = some vm') :
    vm'.mmu.bios_enabled = vm.mmu.bios_enabled := by
  unfold interrupt_stage at h
  by_cases hc : vm.cpu.interrupt = InterruptState.IDisableNextInst
      ∨ vm.cpu.interrupt = InterruptState.IEnabled
  · rw [if_pos hc] at h
    cases hh : handle_interrupts vm with
    | none => rw [hh] at h; exact Option.noConfusion h
    | some p =>
      obtain ⟨c2, v2⟩ := p
      rw [hh] at h
      cases h
      rw [update_timers_bios, update_cpu_clock_mmu]
      exact handle_interrupts_bios _ _ _ hh
  · rw [if_neg hc] at h
    cases h
    rfl

theorem nop_bios_preserving : BiosPreserving nop_instr := by
  intro vm c vm' hb h
  cases h
  exact hb

theorem boot_stage_bios_false (vm : Vm) (hb : vm.mmu.bios_enabled = false) :
    (boot_stage vm).mmu.bios_enabled = false := by
  unfold boot_stage
  by_cases h : 0x100 ≤ vm.cpu.registers.pc
  · rw [if_pos h]
  · rw [if_neg h]; exact hb

theorem boot_stage_bios_of_pc (vm : Vm) (hpc : 0x100 ≤ vm.cpu.registers.pc) :
    (boot_stage vm).mmu.bios_enabled = false := by
  unfold boot_stage
  rw [if_pos hpc]

theorem execute_bios_false_aux (instr : Vm → Option (Clock × Vm)) (vm vm' : Vm)
    (hp : BiosPreserving instr) (hb : (boot_stage vm).mmu.bios_enabled = false)
    (hx : execute_one_instruction instr vm = some vm') :
    vm'.mmu.bios_enabled = false := by
  unfold execute_one_instruction at hx
  cases hi : instr (boot_stage vm) with
  | none =>
    simp only [hi] at hx
    exact Option.noConfusion hx
  | some p =>
    obtain ⟨c, vmi⟩ := p
    simp only [hi] at hx
    have hbi : vmi.mmu.bios_enabled = false := hp _ _ _ hb hi
    cases hs : interrupt_stage (update_timers c (update_cpu_clock c vmi)) with
    | none => rw [hs] at hx; exact Option.noConfusion hx
    | some v =>
      rw [hs] at hx
      cases hx
      have hv := interrupt_stage_bios _ _ hs
      rw [finish_stage_bios, hv, update_timers_bios, update_cpu_clock_mmu]
      exact hbi

/-- Claim C6: the boot latch starts true; no byte or word write changes
it; one execution step clears it whenever PC has reached 0x0100; and once
false it stays false through any single step and any sequence of steps
(with instruction functions that, like every instruction in the source,
never turn it back on), even if PC is later set below 0x0100 - the
sequence part quantifies over all intermediate states, including ones
whose PC is again below 0x0100. -/
theorem boot_latch_one_way :
    vm_default.mmu.bios_enabled = true ∧
    (∀ addr v vm, (wb addr v vm).mmu.bios_enabled = vm.mmu.bios_enabled) ∧
    (∀ addr v vm vm', ww addr v vm = some vm' →
       vm'.mmu.bios_enabled = vm.mmu.bios_enabled) ∧
    (∀ instr vm vm', BiosPreserving instr → 0x100 ≤ vm.cpu.registers.pc →
       execute_one_instruction instr vm = some vm' → vm'.mmu.bios_enabled = false) ∧
    (∀ instr vm vm', BiosPreserving instr → vm.mmu.bios_enabled = false →
       execute_one_instruction instr vm = some vm' → vm'.mmu.bios_enabled = false) ∧
    (∀ instrs vm vm', (∀ i ∈ instrs, BiosPreserving i) →
       vm.mmu.bios_enabled = false →
       run_steps instrs vm = some vm' → vm'.mmu.bios_enabled = false) := by
  refine ⟨rfl, wb_bios, fun a v vm vm' h => (ww_frame a v vm vm' h).2.2.2, ?_, ?_, ?_⟩
  · intro instr vm vm' hp hpc hx
    exact execute_bios_false_aux instr vm vm' hp (boot_stage_bios_of_pc vm hpc) hx
  · intro instr vm vm' hp hb hx
    exact execute_bios_false_aux instr vm vm' hp (boot_stage_bios_false vm hb) hx
  · intro instrs
    induction instrs with
    | nil =>
      intro vm vm' _ hb hr
      cases hr
      exact hb
    | cons i rest ih =>
      intro vm vm' hall hb hr
      unfold run_steps at hr
      cases hx : execute_one_instruction i vm with
      | none => rw [hx] at hr; exact Option.noConfusion hr
      | some vmm =>
        rw [hx] at hr
        have hmm : vmm.mmu.bios_enabled = false :=
          execute_bios_false_aux i vm vmm (hall i (List.mem_cons_self i rest))
            (boot_stage_bios_false vm hb) hx
        exact ih vmm vm' (fun j hj => hall j (List.mem_cons_of_mem i hj)) hmm hr

theorem boot_latch_one_way_witness :
    vm_default.mmu.bios_enabled = true ∧
    Option.map (fun v => v.mmu.bios_enabled)
      (execute_one_instruction nop_instr vm_at_boot_end) = some false := by
  refine ⟨boot_latch_one_way.1, ?_⟩
  obtain ⟨v, hv⟩ : ∃ v, execute_one_instruction nop_instr vm_at_boot_end = some v :=
    ⟨_, rfl⟩
  rw [hv]
  have hfalse := boot_latch_one_way.2.2.2.1 nop_instr vm_at_boot_end v
    nop_bios_preserving (by decide) hv
  show some (v.mmu.bios_enabled) = some false
  rw [hfalse]

end Sgb
